import Mathlib

/-!
Verification of the pdf-presenter page component (src/app/page.tsx).

The repository is a single React page: a PDF viewer that renders each page
of a loaded document onto a canvas, lazily (only while visible), at a scale
derived from the container width, the zoom factor and the device pixel
ratio.  We embed the numeric computations of `renderPage` over ℚ (the code
uses JS numbers; the claims are about the formulas, not about float
rounding), and the session state machine (`loadFile`, `handleClear`,
`onDrop`, `onInputChange`) as explicit state-passing functions.
-/

namespace PdfPresenter

/-! ## Numeric model of PageCanvas.renderPage (page.tsx lines 67-96) -/

/-- pdf.js viewport width at a given scale: dimensions scale linearly, so
`page.getViewport({scale: s}).width = nativeWidth * s`. -/
def viewportWidth (nativeWidth s : ℚ) : ℚ := nativeWidth * s

/-- pdf.js viewport height at a given scale. -/
def viewportHeight (nativeHeight s : ℚ) : ℚ := nativeHeight * s

/-- `const baseScale = Math.max(0.1, fitWidth / vp1.width)` (line 73),
where `vp1.width` is the native (scale-1) page width. -/
def baseScale (fitWidth nativeWidth : ℚ) : ℚ := max (1/10) (fitWidth / nativeWidth)

/-- `const scale = baseScale * zoom` (line 74). -/
def scale (fitWidth nativeWidth zoom : ℚ) : ℚ := baseScale fitWidth nativeWidth * zoom

/-- The observable output of one `renderPage` call: the scale passed to
`getViewport`, the canvas backing-store size, the CSS size, and the
draw transform. -/
structure RenderOutput where
  scaleUsed : ℚ
  canvasWidth : ℤ
  canvasHeight : ℤ
  cssWidth : ℤ
  cssHeight : ℤ
  transform : ℚ × ℚ × ℚ × ℚ × ℚ × ℚ
deriving DecidableEq

/-- The body of `renderPage` (page.tsx lines 67-96), after the visibility
guard, as a pure function of the page's native geometry and the inputs:

* `vp1 = page.getViewport({scale: 1})`, `baseScale = max(0.1, fitWidth / vp1.width)`,
  `scale = baseScale * zoom`, `vp = page.getViewport({scale})`;
* `canvas.width = Math.floor(vp.width * dpr)`, `canvas.height = Math.floor(vp.height * dpr)`;
* `canvas.style.width = Math.floor(vp.width)`, `canvas.style.height = Math.floor(vp.height)`;
* `transform = [dpr, 0, 0, dpr, 0, 0]`. -/
def renderPage (nativeW nativeH fitWidth zoom dpr : ℚ) : RenderOutput :=
  let s := baseScale fitWidth nativeW * zoom
  let vpW := viewportWidth nativeW s
  let vpH := viewportHeight nativeH s
  { scaleUsed := s
    canvasWidth := ⌊vpW * dpr⌋
    canvasHeight := ⌊vpH * dpr⌋
    cssWidth := ⌊vpW⌋
    cssHeight := ⌊vpH⌋
    transform := (dpr, 0, 0, dpr, 0, 0) }

/-- The scale formula as the spec states it: `max(0.1, w / nativeWidth) * z`. -/
def scaleSpec (w nativeWidth z : ℚ) : ℚ := max (1/10) (w / nativeWidth) * z

/-! ## Zoom stepping (page.tsx lines 185-187) -/

/-- `+(x).toFixed(2)`: round to 2 decimal places (nearest, ties up). -/
def round2 (q : ℚ) : ℚ := (round (q * 100) : ℤ) / 100

/-- `zoomOut`: `setZoom((z) => Math.max(0.5, +(z - 0.1).toFixed(2)))`. -/
def zoomOut (z : ℚ) : ℚ := max (1/2) (round2 (z - 1/10))

/-- `zoomIn`: `setZoom((z) => Math.min(3, +(z + 0.1).toFixed(2)))`. -/
def zoomIn (z : ℚ) : ℚ := min 3 (round2 (z + 1/10))

/-- `fitWidth`: `setZoom(1)`. -/
def fitWidthReset : ℚ := 1

/-! ## Helper lemmas about round2 -/

theorem round2_exact (k : ℤ) : round2 ((k : ℚ) / 100) = (k : ℚ) / 100 := by
  unfold round2
  rw [div_mul_eq_mul_div, mul_div_assoc]
  norm_num

theorem round2_mono {a b : ℚ} (h : a ≤ b) : round2 a ≤ round2 b := by
  unfold round2
  have hr : round (a * 100) ≤ round (b * 100) := by
    rw [round_eq, round_eq]
    apply Int.floor_le_floor
    nlinarith
  have h100 : (0 : ℚ) < 100 := by norm_num
  rw [div_le_div_iff_of_pos_right h100]
  exact_mod_cast hr

theorem zoomOut_half : zoomOut (1/2) = 1/2 := by
  unfold zoomOut round2
  rw [round_eq, show ((1:ℚ)/2 - 1/10) * 100 + 1/2 = 81/2 by norm_num,
    show ⌊(81/2 : ℚ)⌋ = 40 by rw [Int.floor_eq_iff] ; norm_num]
  rw [max_eq_left (by norm_num)]

theorem zoomIn_three : zoomIn 3 = 3 := by
  unfold zoomIn round2
  rw [round_eq, show ((3:ℚ) + 1/10) * 100 + 1/2 = 621/2 by norm_num,
    show ⌊(621/2 : ℚ)⌋ = 310 by rw [Int.floor_eq_iff] ; norm_num]
  rw [min_eq_left (by norm_num)]

theorem zoomOut_bounds {z : ℚ} (h1 : 1/2 ≤ z) (h2 : z ≤ 3) :
    1/2 ≤ zoomOut z ∧ zoomOut z ≤ 3 := by
  refine ⟨le_max_left _ _, max_le (by norm_num) ?_⟩
  have hm : round2 (z - 1/10) ≤ round2 (29/10) := round2_mono (by linarith)
  have he : round2 ((29:ℚ)/10) = 29/10 := by
    have h := round2_exact 290
    norm_num at h
    exact h
  rw [he] at hm
  linarith

theorem zoomIn_bounds {z : ℚ} (h1 : 1/2 ≤ z) (h2 : z ≤ 3) :
    1/2 ≤ zoomIn z ∧ zoomIn z ≤ 3 := by
  refine ⟨le_min (by norm_num) ?_, min_le_left _ _⟩
  have hm : round2 ((3:ℚ)/5) ≤ round2 (z + 1/10) := round2_mono (by linarith)
  have he : round2 ((3:ℚ)/5) = 3/5 := by
    have h := round2_exact 60
    norm_num at h
    exact h
  rw [he] at hm
  linarith

theorem zoomOut_step {k : ℤ} (h1 : 60 ≤ k) (h2 : k ≤ 300) :
    zoomOut ((k:ℚ)/100) = (k:ℚ)/100 - 1/10 := by
  unfold zoomOut
  rw [show (k:ℚ)/100 - 1/10 = ((k - 10 : ℤ) : ℚ)/100 by push_cast ; ring, round2_exact]
  rw [max_eq_right]
  have : (50 : ℚ) ≤ ((k - 10 : ℤ) : ℚ) := by exact_mod_cast (by omega : (50:ℤ) ≤ k - 10)
  linarith

theorem zoomIn_step {k : ℤ} (h1 : 50 ≤ k) (h2 : k ≤ 290) :
    zoomIn ((k:ℚ)/100) = (k:ℚ)/100 + 1/10 := by
  unfold zoomIn
  rw [show (k:ℚ)/100 + 1/10 = ((k + 10 : ℤ) : ℚ)/100 by push_cast ; ring, round2_exact]
  rw [min_eq_right]
  have : ((k + 10 : ℤ) : ℚ) ≤ 300 := by exact_mod_cast (by omega : k + 10 ≤ (300:ℤ))
  linarith

/-! ## Session state machine (PDFViewerPage, page.tsx lines 115-193)

We model the React state of `PDFViewerPage` as a record, and each event
handler as a state-passing function.  Blob-URL allocation
(`URL.createObjectURL` / `URL.revokeObjectURL`) is modelled by a counter
`nextUrl` handing out fresh ids, a log `createdUrls` of every id created, and
a log `revokedUrls` of every revocation call (with multiplicity), so that
release-exactly-once properties are expressible.  A React batch of setState
calls inside one handler phase is one atomic state change. -/

/-- A user-supplied file: its name, its MIME type, and the outcome of parsing
its bytes with the rendering library (`getDocument`): `some n` when parsing
succeeds with `n` pages, `none` when the parse promise rejects. -/
structure PdfFile where
  name : String
  mime : String
  parsePages : Option ℕ
deriving DecidableEq

/-- The React state of `PDFViewerPage`, plus the blob-URL allocator model. -/
structure SessionState where
  fileName : Option String
  status : String
  isBusy : Bool
  pdfUrl : Option ℕ
  numPages : ℕ
  pdfDoc : Option ℕ
  zoom : ℚ
  nextUrl : ℕ
  createdUrls : List ℕ
  revokedUrls : List ℕ
  nextDoc : ℕ
deriving DecidableEq

/-- The initial state (useState initializers, page.tsx lines 116-124). -/
def initialState : SessionState where
  fileName := none
  status := "Henüz dosya seçilmedi."
  isBusy := false
  pdfUrl := none
  numPages := 0
  pdfDoc := none
  zoom := 1
  nextUrl := 0
  createdUrls := []
  revokedUrls := []
  nextDoc := 0

/-- `if (pdfUrl) URL.revokeObjectURL(pdfUrl)` — the revocation step shared by
`loadFile` (line 137) and `handleClear` (line 177). -/
def revokeCurrent (s : SessionState) : SessionState :=
  match s.pdfUrl with
  | some u => { s with revokedUrls := s.revokedUrls ++ [u] }
  | none => s

/-- First, synchronous phase of `loadFile` (page.tsx lines 136-146): revoke
the previous blob URL if any, create a fresh one, set the busy flag, the
loading status and the file name, and clear the document handle and the page
count before parsing begins. -/
def loadBegin (f : PdfFile) (s : SessionState) : SessionState :=
  let s1 := revokeCurrent s
  { s1 with
    pdfUrl := some s1.nextUrl
    nextUrl := s1.nextUrl + 1
    createdUrls := s1.createdUrls ++ [s1.nextUrl]
    isBusy := true
    status := "PDF yükleniyor…"
    fileName := some f.name
    pdfDoc := none
    numPages := 0 }

/-- Second phase of `loadFile` (the try/catch/finally, page.tsx lines
148-159): on success store the handle, the page count and the success status;
on failure set the failure status; either way drop the busy flag. -/
def loadFinish (f : PdfFile) (s : SessionState) : SessionState :=
  match f.parsePages with
  | some n =>
      { s with
        pdfDoc := some s.nextDoc
        nextDoc := s.nextDoc + 1
        numPages := n
        status := "Yüklendi: " ++ toString n ++ " sayfa"
        isBusy := false }
  | none => { s with status := "Hata: PDF yüklenemedi.", isBusy := false }

/-- `loadFile` (page.tsx lines 135-160), run to completion. -/
def loadFile (f : PdfFile) (s : SessionState) : SessionState :=
  loadFinish f (loadBegin f s)

/-- `handleClear` (page.tsx lines 176-183): revoke the blob URL if any, drop
the handle, reset the page count and the file name, set the cleared status. -/
def handleClear (s : SessionState) : SessionState :=
  let s1 := revokeCurrent s
  { s1 with
    pdfUrl := none
    pdfDoc := none
    numPages := 0
    fileName := none
    status := "Temizlendi. Yeni bir PDF yükleyin." }

/-- `onInputChange` (page.tsx lines 162-165): load the first selected file,
if any. -/
def onInputChange (files : List PdfFile) (s : SessionState) : SessionState :=
  match files.head? with
  | some f => loadFile f s
  | none => s

/-- `onDrop` (page.tsx lines 167-172): load the first dropped file, but only
when its MIME type is `application/pdf`. -/
def onDrop (files : List PdfFile) (s : SessionState) : SessionState :=
  match files.head? with
  | some f => if f.mime = "application/pdf" then loadFile f s else s
  | none => s

/-- A session-level operation: a completed load of a file, or a clear. -/
inductive SessionOp where
  | load : PdfFile → SessionOp
  | clear : SessionOp
deriving DecidableEq

def applyOp (s : SessionState) : SessionOp → SessionState
  | .load f => loadFile f s
  | .clear => handleClear s

def runOps (s : SessionState) : List SessionOp → SessionState
  | [] => s
  | op :: rest => runOps (applyOp s op) rest

/-- All states observable during a run of operations: a load contributes both
the mid-parse state (after `loadBegin`) and its final state. -/
def traceStates (s : SessionState) : List SessionOp → List SessionState
  | [] => []
  | .load f :: rest =>
      let mid := loadBegin f s
      let fin := loadFinish f mid
      mid :: fin :: traceStates fin rest
  | .clear :: rest =>
      let s1 := handleClear s
      s1 :: traceStates s1 rest

/-! ## PageCanvas effect model (page.tsx lines 50-113)

`PageCanvas` recomputes its `renderPage` callback whenever any of its
dependencies (pdf, pageNumber, fitWidth, zoom, dpr, visible) changes, and a
`useEffect` keyed on that callback runs it.  The callback returns immediately
— before fetching the page or touching the canvas — unless the visibility
signal is true and the canvas is mounted (line 68). -/

/-- The input tuple of a `PageCanvas`: document handle (by generation), page
index, fit width, zoom, device pixel density. -/
structure PageInputs where
  docGen : ℕ
  pageNumber : ℕ
  fitWidth : ℚ
  zoom : ℚ
  dpr : ℚ
deriving DecidableEq

/-- An observable effect of one run of the `renderPage` callback:
`fetchPage n` is `pdf.getPage(n)`, `draw i` is the `page.render` call issued
for the input tuple `i`. -/
inductive PageEffect where
  | fetchPage : ℕ → PageEffect
  | draw : PageInputs → PageEffect
deriving DecidableEq

/-- Effects of one run of `renderPage` (page.tsx lines 67-96): nothing at all
when the guard `if (!visible || !canvasRef.current) return` fires; otherwise
one page fetch followed by one draw with the current input tuple. -/
def renderPageEffects (visible canvasPresent : Bool) (i : PageInputs) :
    List PageEffect :=
  if visible && canvasPresent then [.fetchPage i.pageNumber, .draw i] else []

/-- An event that changes a dependency of the `renderPage` callback. -/
inductive PageEvent where
  | setVisible : Bool → PageEvent
  | setInputs : PageInputs → PageEvent
deriving DecidableEq

structure PageState where
  visible : Bool
  inputs : PageInputs
deriving DecidableEq

/-- One dependency change: the state updates and the effect re-runs the
`renderPage` callback (page.tsx lines 98-100). -/
def stepPage (s : PageState) : PageEvent → PageState × List PageEffect
  | .setVisible v =>
      let s2 : PageState := { s with visible := v }
      (s2, renderPageEffects s2.visible true s2.inputs)
  | .setInputs i =>
      let s2 : PageState := { s with inputs := i }
      (s2, renderPageEffects s2.visible true s2.inputs)

/-- Run a sequence of dependency changes, collecting all emitted effects. -/
def runPage (s : PageState) : List PageEvent → PageState × List PageEffect
  | [] => (s, [])
  | e :: rest =>
      let out := stepPage s e
      let out2 := runPage out.1 rest
      (out2.1, out.2 ++ out2.2)

/-! ## Blob-URL lifecycle invariant -/

/-- Allocator invariant: every created id is below the counter, every
revocation names an id below the counter, the live URL was created, and every
created URL has been revoked exactly once unless it is the live one, which
has not been revoked at all. -/
def urlAux (s : SessionState) : Prop :=
  (∀ u ∈ s.createdUrls, u < s.nextUrl) ∧
  (∀ u ∈ s.revokedUrls, u < s.nextUrl) ∧
  (∀ u, s.pdfUrl = some u → u ∈ s.createdUrls) ∧
  (∀ u ∈ s.createdUrls, s.revokedUrls.count u = if s.pdfUrl = some u then 0 else 1)

theorem revokeCurrent_of_none {s : SessionState} (h : s.pdfUrl = none) :
    revokeCurrent s = s := by
  unfold revokeCurrent
  rw [h]

theorem revokeCurrent_of_some {s : SessionState} {u : ℕ} (h : s.pdfUrl = some u) :
    revokeCurrent s = { s with revokedUrls := s.revokedUrls ++ [u] } := by
  unfold revokeCurrent
  rw [h]

theorem urlAux_initial : urlAux initialState := by
  refine ⟨?_, ?_, ?_, ?_⟩ <;> intro u hu <;> simp [initialState] at hu

theorem urlAux_loadBegin (f : PdfFile) {s : SessionState} (h : urlAux s) :
    urlAux (loadBegin f s) := by
  obtain ⟨hc, hr, hp, hcnt⟩ := h
  cases hu : s.pdfUrl with
  | none =>
      unfold loadBegin
      rw [revokeCurrent_of_none hu]
      refine ⟨?_, ?_, ?_, ?_⟩
      · intro u hmem
        simp only [List.mem_append, List.mem_singleton] at hmem
        rcases hmem with hm | hm
        · exact Nat.lt_succ_of_lt (hc u hm)
        · subst hm
          exact Nat.lt_succ_self _
      · intro u hmem
        exact Nat.lt_succ_of_lt (hr u hmem)
      · intro u he
        simp only [Option.some.injEq] at he
        subst he
        simp
      · intro u hmem
        simp only [List.mem_append, List.mem_singleton] at hmem
        rcases hmem with hm | hm
        · have hne : s.nextUrl ≠ u := fun he => absurd (he ▸ hc u hm) (lt_irrefl u)
          simp only [Option.some.injEq, if_neg hne]
          have := hcnt u hm
          rw [hu] at this
          simpa using this
        · subst hm
          rw [if_pos rfl, List.count_eq_zero]
          intro hmem2
          exact absurd (hr _ hmem2) (lt_irrefl _)
  | some u0 =>
      unfold loadBegin
      rw [revokeCurrent_of_some hu]
      have hu0 : u0 ∈ s.createdUrls := hp u0 hu
      have hu0lt : u0 < s.nextUrl := hc u0 hu0
      refine ⟨?_, ?_, ?_, ?_⟩
      · intro u hmem
        simp only [List.mem_append, List.mem_singleton] at hmem
        rcases hmem with hm | hm
        · exact Nat.lt_succ_of_lt (hc u hm)
        · subst hm
          exact Nat.lt_succ_self _
      · intro u hmem
        simp only [List.mem_append, List.mem_singleton] at hmem
        rcases hmem with hm | hm
        · exact Nat.lt_succ_of_lt (hr u hm)
        · subst hm
          exact Nat.lt_succ_of_lt hu0lt
      · intro u he
        simp only [Option.some.injEq] at he
        subst he
        simp
      · intro u hmem
        simp only [List.mem_append, List.mem_singleton] at hmem
        simp only [List.count_append]
        rcases hmem with hm | hm
        · have hne : s.nextUrl ≠ u := fun he => absurd (he ▸ hc u hm) (lt_irrefl u)
          simp only [Option.some.injEq, if_neg hne]
          have hbase := hcnt u hm
          rw [hu] at hbase
          by_cases he0 : u = u0
          · subst he0
            simp only [Option.some.injEq, if_pos rfl] at hbase
            simp [hbase, List.count_singleton]
          · simp only [Option.some.injEq, if_neg (fun hh : u0 = u => he0 hh.symm)] at hbase
            have : List.count u [u0] = 0 := by
              simp [List.count_singleton']
              omega
            omega
        · subst hm
          rw [if_pos rfl]
          have h1 : List.count s.nextUrl s.revokedUrls = 0 := by
            rw [List.count_eq_zero]
            intro hmem2
            exact absurd (hr _ hmem2) (lt_irrefl _)
          have h2 : List.count s.nextUrl [u0] = 0 := by
            simp [List.count_singleton']
            omega
          omega

theorem urlAux_loadFinish (f : PdfFile) {s : SessionState} (h : urlAux s) :
    urlAux (loadFinish f s) := by
  obtain ⟨hc, hr, hp, hcnt⟩ := h
  unfold loadFinish
  cases f.parsePages with
  | some n => exact ⟨hc, hr, hp, hcnt⟩
  | none => exact ⟨hc, hr, hp, hcnt⟩

theorem urlAux_handleClear {s : SessionState} (h : urlAux s) :
    urlAux (handleClear s) := by
  obtain ⟨hc, hr, hp, hcnt⟩ := h
  cases hu : s.pdfUrl with
  | none =>
      unfold handleClear
      rw [revokeCurrent_of_none hu]
      refine ⟨hc, hr, ?_, ?_⟩
      · intro u he
        simp at he
      · intro u hmem
        have hbase := hcnt u hmem
        rw [hu] at hbase
        simpa using hbase
  | some u0 =>
      unfold handleClear
      rw [revokeCurrent_of_some hu]
      have hu0 : u0 ∈ s.createdUrls := hp u0 hu
      have hu0lt : u0 < s.nextUrl := hc u0 hu0
      refine ⟨hc, ?_, ?_, ?_⟩
      · intro u hmem
        simp only [List.mem_append, List.mem_singleton] at hmem
        rcases hmem with hm | hm
        · exact hr u hm
        · subst hm
          exact hu0lt
      · intro u he
        simp at he
      · intro u hmem
        simp only [List.count_append, if_neg (Option.noConfusion : ¬ (none = some u))]
        have hbase := hcnt u hmem
        rw [hu] at hbase
        by_cases he0 : u = u0
        · subst he0
          simp only [Option.some.injEq, if_pos rfl] at hbase
          simp [hbase, List.count_singleton]
        · simp only [Option.some.injEq, if_neg (fun hh : u0 = u => he0 hh.symm)] at hbase
          have : List.count u [u0] = 0 := by
            simp [List.count_singleton']
            omega
          omega

theorem urlAux_runOps (ops : List SessionOp) {s : SessionState} (h : urlAux s) :
    urlAux (runOps s ops) := by
  induction ops generalizing s with
  | nil => exact h
  | cons op rest ih =>
      cases op with
      | load f => exact ih (urlAux_loadFinish f (urlAux_loadBegin f h))
      | clear => exact ih (urlAux_handleClear h)

/-! ## Claims C1-C4 -/

/-- C1: for every fit width w > 0, zoom factor z, and native (scale-1) page
width nativeWidth > 0, the scale `renderPage` uses for drawing (the one it
passes to `getViewport` and derives all canvas dimensions from) equals
`max(0.1, w / nativeWidth) * z`. -/
theorem render_scale_eq_spec (nativeW nativeH w z dpr : ℚ)
    (hw : 0 < w) (hn : 0 < nativeW) :
    (renderPage nativeW nativeH w z dpr).scaleUsed = scaleSpec w nativeW z := rfl

theorem render_scale_eq_spec_witness :
    0 < (884 : ℚ) ∧ 0 < (612 : ℚ) ∧
      (renderPage 612 792 884 1 2).scaleUsed = scaleSpec 884 612 1 :=
  ⟨by norm_num, by norm_num, render_scale_eq_spec 612 792 884 1 2 (by norm_num) (by norm_num)⟩

/-- C2: for every render, the canvas backing store is sized to
`floor(scaledWidth * dpr) × floor(scaledHeight * dpr)` physical pixels and the
CSS footprint to `floor(scaledWidth) × floor(scaledHeight)` logical pixels,
where scaledWidth/scaledHeight are the page's viewport dimensions at the
computed scale. -/
theorem render_canvas_sizing (nativeW nativeH w z dpr : ℚ) :
    (renderPage nativeW nativeH w z dpr).canvasWidth
        = ⌊viewportWidth nativeW (scale w nativeW z) * dpr⌋ ∧
    (renderPage nativeW nativeH w z dpr).canvasHeight
        = ⌊viewportHeight nativeH (scale w nativeW z) * dpr⌋ ∧
    (renderPage nativeW nativeH w z dpr).cssWidth
        = ⌊viewportWidth nativeW (scale w nativeW z)⌋ ∧
    (renderPage nativeW nativeH w z dpr).cssHeight
        = ⌊viewportHeight nativeH (scale w nativeW z)⌋ :=
  ⟨rfl, rfl, rfl, rfl⟩

/-- C3 counterexample: at nativeW = nativeH = 100, fitWidth = 10.5, zoom = 1,
dpr = 2 (within [1, 2]), the computed scale is 0.105, the scaled width is 10.5,
and the canvas backing store is 21 physical pixels wide — not
`floor(logicalWidth * dpr) = floor(10 * 2) = 20` as the claim states with
`logicalWidth = floor(nativeWidth * scale) = 10`. -/
theorem render_phys_not_from_floored_css :
    ¬ ((renderPage 100 100 (21/2) 1 2).canvasWidth
        = ⌊((renderPage 100 100 (21/2) 1 2).cssWidth : ℚ) * 2⌋) := by
  have h1 : (renderPage 100 100 (21/2) 1 2).canvasWidth = 21 := by
    unfold renderPage viewportWidth viewportHeight baseScale
    simp only
    rw [show max ((1:ℚ)/10) (21/2/100) * 1 = 21/200 by norm_num,
      show (100 : ℚ) * (21/200) * 2 = 21 by norm_num]
    exact_mod_cast Int.floor_intCast 21
  have h2 : (renderPage 100 100 (21/2) 1 2).cssWidth = 10 := by
    unfold renderPage viewportWidth viewportHeight baseScale
    simp only
    rw [show max ((1:ℚ)/10) (21/2/100) * 1 = 21/200 by norm_num,
      show (100 : ℚ) * (21/200) = 21/2 by norm_num]
    rw [Int.floor_eq_iff] ; norm_num
  rw [h1, h2]
  rw [show ((10:ℤ) : ℚ) * 2 = (20:ℤ) by norm_num, Int.floor_intCast]
  norm_num

/-- C3 amended: for every device pixel density d in [1, 2], the physical
backing-store dimensions equal `floor(scaledWidth * d) × floor(scaledHeight * d)`
where scaledWidth/scaledHeight are the (unfloored) viewport dimensions at the
computed scale; the surface's logical dimensions are
`floor(scaledWidth) × floor(scaledHeight)` (the code floors the scaled size
after multiplying by d, not the already-floored logical size). -/
theorem render_phys_dims_of_density (nativeW nativeH w z d : ℚ)
    (h1 : 1 ≤ d) (h2 : d ≤ 2) :
    (renderPage nativeW nativeH w z d).canvasWidth
        = ⌊viewportWidth nativeW (scale w nativeW z) * d⌋ ∧
    (renderPage nativeW nativeH w z d).canvasHeight
        = ⌊viewportHeight nativeH (scale w nativeW z) * d⌋ ∧
    (renderPage nativeW nativeH w z d).cssWidth
        = ⌊viewportWidth nativeW (scale w nativeW z)⌋ ∧
    (renderPage nativeW nativeH w z d).cssHeight
        = ⌊viewportHeight nativeH (scale w nativeW z)⌋ :=
  ⟨rfl, rfl, rfl, rfl⟩

theorem render_phys_dims_of_density_witness :
    (1 : ℚ) ≤ 2 ∧ (2 : ℚ) ≤ 2 ∧
      (renderPage 612 792 884 1 2).canvasWidth
        = ⌊viewportWidth 612 (scale 884 612 1) * 2⌋ :=
  ⟨by norm_num, by norm_num, (render_phys_dims_of_density 612 792 884 1 2
    (by norm_num) (by norm_num)).1⟩

/-- C4: zoom stepping changes zoom by a fixed 0.1 step rounded to 2 decimal
places and clamped to [0.5, 3.0] (for any z in [0.5, 3], both steppers stay in
[0.5, 3], and away from the clamping bound the step is exactly 0.1 on
2-decimal values), and is idempotent at the bounds: any number of zoom-out
repetitions at 0.5 stays at 0.5, and any number of zoom-in repetitions at 3.0
stays at 3.0. -/
theorem zoom_step_clamped_idempotent :
    (∀ n : ℕ, zoomOut^[n] (1/2) = 1/2) ∧
    (∀ n : ℕ, zoomIn^[n] (3 : ℚ) = 3) ∧
    (∀ z : ℚ, 1/2 ≤ z → z ≤ 3 →
      1/2 ≤ zoomOut z ∧ zoomOut z ≤ 3 ∧ 1/2 ≤ zoomIn z ∧ zoomIn z ≤ 3) ∧
    (∀ k : ℤ, 60 ≤ k → k ≤ 300 → zoomOut ((k:ℚ)/100) = (k:ℚ)/100 - 1/10) ∧
    (∀ k : ℤ, 50 ≤ k → k ≤ 290 → zoomIn ((k:ℚ)/100) = (k:ℚ)/100 + 1/10) :=
  ⟨fun n => Function.iterate_fixed zoomOut_half n,
   fun n => Function.iterate_fixed zoomIn_three n,
   fun z h1 h2 =>
     ⟨(zoomOut_bounds h1 h2).1, (zoomOut_bounds h1 h2).2,
      (zoomIn_bounds h1 h2).1, (zoomIn_bounds h1 h2).2⟩,
   fun k h1 h2 => zoomOut_step h1 h2,
   fun k h1 h2 => zoomIn_step h1 h2⟩

theorem zoom_step_clamped_idempotent_witness :
    zoomOut^[5] (1/2) = 1/2 ∧
    ((1:ℚ)/2 ≤ 1 ∧ (1:ℚ) ≤ 3 ∧
      1/2 ≤ zoomOut 1 ∧ zoomOut 1 ≤ 3 ∧ 1/2 ≤ zoomIn 1 ∧ zoomIn 1 ≤ 3) ∧
    ((60:ℤ) ≤ 100 ∧ (100:ℤ) ≤ 300 ∧
      zoomOut (((100:ℤ):ℚ)/100) = ((100:ℤ):ℚ)/100 - 1/10) ∧
    ((50:ℤ) ≤ 100 ∧ (100:ℤ) ≤ 290 ∧
      zoomIn (((100:ℤ):ℚ)/100) = ((100:ℤ):ℚ)/100 + 1/10) :=
  ⟨zoom_step_clamped_idempotent.1 5,
   ⟨by norm_num, by norm_num,
     zoom_step_clamped_idempotent.2.2.1 1 (by norm_num) (by norm_num)⟩,
   ⟨by norm_num, by norm_num,
     zoom_step_clamped_idempotent.2.2.2.1 100 (by norm_num) (by norm_num)⟩,
   ⟨by norm_num, by norm_num,
     zoom_step_clamped_idempotent.2.2.2.2 100 (by norm_num) (by norm_num)⟩⟩

/-! ## Claims C5-C10 -/

/-- C5: a PageCanvas whose visibility signal is false performs zero draw
calls and zero page fetches — the `renderPage` callback emits no effects
while invisible, over any sequence of dependency changes that never turns
the visibility signal true — and a visibility change from false to true
triggers exactly one run: one page fetch followed by exactly one draw call
with the current input tuple. -/
theorem render_visibility_gate :
    (∀ (c : Bool) (i : PageInputs), renderPageEffects false c i = []) ∧
    (∀ (s : PageState) (events : List PageEvent), s.visible = false →
      (∀ e ∈ events, ∀ b, e = PageEvent.setVisible b → b = false) →
      (runPage s events).2 = []) ∧
    (∀ s : PageState, s.visible = false →
      (stepPage s (PageEvent.setVisible true)).2
        = [PageEffect.fetchPage s.inputs.pageNumber, PageEffect.draw s.inputs]) := by
  refine ⟨?_, ?_, ?_⟩
  · intro c i
    simp [renderPageEffects]
  · intro s events
    induction events generalizing s with
    | nil =>
        intro _ _
        rfl
    | cons e rest ih =>
        intro hv hform
        have hrest : ∀ e2 ∈ rest, ∀ b, e2 = PageEvent.setVisible b → b = false :=
          fun e2 he2 b hb => hform e2 (List.mem_cons_of_mem _ he2) b hb
        cases e with
        | setVisible b =>
            have hb : b = false := hform _ (List.mem_cons_self _ _) b rfl
            subst hb
            have htail := ih (stepPage s (PageEvent.setVisible false)).1 rfl hrest
            simpa [runPage, stepPage, renderPageEffects] using htail
        | setInputs i =>
            have htail := ih (stepPage s (PageEvent.setInputs i)).1 hv hrest
            simpa [runPage, stepPage, renderPageEffects, hv] using htail
  · intro s hv
    simp [stepPage, renderPageEffects]

theorem render_visibility_gate_witness :
    ((⟨false, ⟨0, 1, 884, 1, 2⟩⟩ : PageState).visible = false ∧
      (runPage ⟨false, ⟨0, 1, 884, 1, 2⟩⟩ [PageEvent.setInputs ⟨0, 1, 884, 2, 2⟩]).2
        = []) ∧
    (stepPage (⟨false, ⟨0, 1, 884, 1, 2⟩⟩ : PageState) (PageEvent.setVisible true)).2
        = [PageEffect.fetchPage 1, PageEffect.draw ⟨0, 1, 884, 1, 2⟩] :=
  ⟨⟨rfl,
    render_visibility_gate.2.1 ⟨false, ⟨0, 1, 884, 1, 2⟩⟩
      [PageEvent.setInputs ⟨0, 1, 884, 2, 2⟩] rfl
      (by
        intro e he b hb
        simp only [List.mem_singleton] at he
        subst he
        simp at hb)⟩,
   render_visibility_gate.2.2 ⟨false, ⟨0, 1, 884, 1, 2⟩⟩ rfl⟩

/-- C6: over any sequence of Load and Clear operations from the initial
session, every blob URL the allocator ever handed out has been revoked
exactly once — by the Load that replaced it or the Clear that dropped it —
except the currently live one, which has not been revoked at all: no
double-release and no leak. -/
theorem blob_url_released_exactly_once (ops : List SessionOp) (u : ℕ)
    (hu : u ∈ (runOps initialState ops).createdUrls) :
    (runOps initialState ops).revokedUrls.count u
      = if (runOps initialState ops).pdfUrl = some u then 0 else 1 :=
  (urlAux_runOps ops urlAux_initial).2.2.2 u hu

theorem blob_url_released_exactly_once_witness :
    0 ∈ (runOps initialState
        [SessionOp.load ⟨"a.pdf", "application/pdf", some 3⟩,
         SessionOp.load ⟨"b.pdf", "application/pdf", some 5⟩]).createdUrls ∧
    (runOps initialState
        [SessionOp.load ⟨"a.pdf", "application/pdf", some 3⟩,
         SessionOp.load ⟨"b.pdf", "application/pdf", some 5⟩]).revokedUrls.count 0
      = if (runOps initialState
          [SessionOp.load ⟨"a.pdf", "application/pdf", some 3⟩,
           SessionOp.load ⟨"b.pdf", "application/pdf", some 5⟩]).pdfUrl = some 0
        then 0 else 1 :=
  ⟨by
    simp [runOps, applyOp, loadFile, loadBegin, loadFinish, revokeCurrent, initialState],
   blob_url_released_exactly_once
    [SessionOp.load ⟨"a.pdf", "application/pdf", some 3⟩,
     SessionOp.load ⟨"b.pdf", "application/pdf", some 5⟩] 0
    (by
      simp [runOps, applyOp, loadFile, loadBegin, loadFinish, revokeCurrent,
        initialState])⟩

/-- An empty session: no blob URL, no document handle, no pages, no file. -/
def emptySession (s : SessionState) : Prop :=
  s.pdfUrl = none ∧ s.pdfDoc = none ∧ s.numPages = 0 ∧ s.fileName = none

/-- C7 counterexample: clearing the empty initial session does not reset the
status text to the initial placeholder ("Henüz dosya seçilmedi."): it sets
the distinct cleared-session message ("Temizlendi. Yeni bir PDF yükleyin."). -/
theorem clear_empty_status_ne_initial :
    (handleClear initialState).status ≠ initialState.status := by
  simp [handleClear, revokeCurrent, initialState]

/-- C7 amended: invoking Clear on an empty session is a no-op on the
document state — only the status text changes — and it sets the status to the
fixed cleared-session message, which differs from the initial placeholder
text shown before any file was selected. -/
theorem clear_empty_session_sets_cleared_status (s : SessionState)
    (h : emptySession s) :
    handleClear s = { s with status := "Temizlendi. Yeni bir PDF yükleyin." } ∧
    "Temizlendi. Yeni bir PDF yükleyin." ≠ initialState.status := by
  constructor
  · obtain ⟨h1, h2, h3, h4⟩ := h
    cases s
    simp_all [handleClear, revokeCurrent]
  · simp [initialState]

theorem clear_empty_session_sets_cleared_status_witness :
    emptySession initialState ∧
      handleClear initialState
        = { initialState with status := "Temizlendi. Yeni bir PDF yükleyin." } :=
  ⟨⟨rfl, rfl, rfl, rfl⟩,
   (clear_empty_session_sets_cleared_status initialState ⟨rfl, rfl, rfl, rfl⟩).1⟩

/-- C8: for every dropped file list whose first file has a MIME type other
than application/pdf, `onDrop` is a silent no-op: the session state — status,
handle, page count, blob-URL allocator, everything — is returned unchanged. -/
theorem drop_non_pdf_noop (f : PdfFile) (rest : List PdfFile) (s : SessionState)
    (h : f.mime ≠ "application/pdf") :
    onDrop (f :: rest) s = s := by
  unfold onDrop
  simp [h]

theorem drop_non_pdf_noop_witness :
    (PdfFile.mk "cat.png" "image/png" none).mime ≠ "application/pdf" ∧
      onDrop [PdfFile.mk "cat.png" "image/png" none] initialState = initialState :=
  ⟨by simp,
   drop_non_pdf_noop (PdfFile.mk "cat.png" "image/png" none) [] initialState (by simp)⟩

/-- C9: in every state reachable from the initial session through Load and
Clear operations — including the mid-parse state of each Load — a nonzero
page count implies a present document handle; moreover `loadBegin` clears
both handle and page count before parsing, a failed Load leaves both
cleared, a successful Load sets both together, and Clear resets both. -/
theorem pages_nonzero_implies_handle :
    (∀ ops : List SessionOp, ∀ t ∈ traceStates initialState ops,
      t.numPages ≠ 0 → t.pdfDoc.isSome = true) ∧
    (∀ (f : PdfFile) (s : SessionState),
      (loadBegin f s).pdfDoc = none ∧ (loadBegin f s).numPages = 0) ∧
    (∀ (f : PdfFile) (s : SessionState), f.parsePages = none →
      (loadFile f s).pdfDoc = none ∧ (loadFile f s).numPages = 0) ∧
    (∀ (f : PdfFile) (s : SessionState) (n : ℕ), f.parsePages = some n →
      (loadFile f s).pdfDoc.isSome = true ∧ (loadFile f s).numPages = n) ∧
    (∀ s : SessionState, (handleClear s).pdfDoc = none ∧ (handleClear s).numPages = 0) := by
  refine ⟨?_, ?_, ?_, ?_, ?_⟩
  · intro ops
    suffices h : ∀ s0 : SessionState, ∀ t ∈ traceStates s0 ops,
        t.numPages ≠ 0 → t.pdfDoc.isSome = true from h initialState
    induction ops with
    | nil =>
        intro s0 t ht
        simp [traceStates] at ht
    | cons op rest ih =>
        intro s0 t ht
        cases op with
        | load f =>
            rw [traceStates] at ht
            rcases List.mem_cons.mp ht with hm | hm
            · subst hm
              intro hn
              exact absurd rfl hn
            rcases List.mem_cons.mp hm with hm2 | hm2
            · subst hm2
              cases hp : f.parsePages with
              | some n =>
                  intro _
                  simp [loadFinish, hp]
              | none =>
                  intro hn
                  exact absurd (by simp [loadFinish, hp, loadBegin]) hn
            · exact ih _ t hm2
        | clear =>
            rw [traceStates] at ht
            rcases List.mem_cons.mp ht with hm | hm
            · subst hm
              intro hn
              exact absurd rfl hn
            · exact ih _ t hm
  · intro f s
    exact ⟨rfl, rfl⟩
  · intro f s hp
    unfold loadFile loadFinish
    rw [hp]
    exact ⟨rfl, rfl⟩
  · intro f s n hp
    unfold loadFile loadFinish
    rw [hp]
    exact ⟨rfl, rfl⟩
  · intro s
    exact ⟨rfl, rfl⟩

theorem pages_nonzero_implies_handle_witness :
    loadFile ⟨"a.pdf", "application/pdf", some 3⟩ initialState
        ∈ traceStates initialState [SessionOp.load ⟨"a.pdf", "application/pdf", some 3⟩] ∧
    (loadFile ⟨"a.pdf", "application/pdf", some 3⟩ initialState).numPages ≠ 0 ∧
    (loadFile ⟨"a.pdf", "application/pdf", some 3⟩ initialState).pdfDoc.isSome = true :=
  ⟨List.mem_cons_of_mem _ (List.mem_cons_self _ _),
   by simp [loadFile, loadFinish, loadBegin],
   pages_nonzero_implies_handle.1
    [SessionOp.load ⟨"a.pdf", "application/pdf", some 3⟩] _
    (List.mem_cons_of_mem _ (List.mem_cons_self _ _))
    (by simp [loadFile, loadFinish, loadBegin])⟩

/-- C10: when more than one file is selected or dropped at once, only the
first file of the list matters: both the picker handler and the drop handler
behave exactly as they would on the first file alone. -/
theorem only_first_file_considered (f : PdfFile) (rest : List PdfFile)
    (s : SessionState) :
    onInputChange (f :: rest) s = onInputChange [f] s ∧
    onDrop (f :: rest) s = onDrop [f] s :=
  ⟨rfl, rfl⟩

end PdfPresenter
